import Mathlib

/-!
Verification development for the order-authorization-and-settlement service.

The ledger store (orders / authorizations / settlements), the settlement
route, the authorization route, the order-details route and the offline
consistency audit are embedded as pure Lean functions over an explicit
`Store` state.  Monetary values are modelled as exact rationals; the
JavaScript helpers `toMoney` (Number(x.toFixed(2))) and `hasTwoDecimalsMax`
(Math.round(x*100) === x*100) become rounding on `ℚ`.
-/

namespace Capstone

/-- Order status enum (src/shared/constants.js, ORDER_STATUS). -/
inductive OrderStatus
  | PENDING
  | AUTHORIZED
  | SETTLED
  | ERROR
deriving DecidableEq, Repr

/-- Authorization outcome enum (src/shared/constants.js, AUTH_OUTCOME). -/
inductive AuthOutcome
  | SUCCESS
  | INSUFFICIENT_FUNDS
  | INCORRECT_DETAILS
  | SERVER_ERROR
deriving DecidableEq, Repr

/-- Settlement outcome enum (src/shared/constants.js, SETTLEMENT_OUTCOME). -/
inductive SettlementOutcome
  | SUCCESS
  | EXCEEDS_AUTH
deriving DecidableEq, Repr

/-- A row of the `orders` table. -/
structure Order where
  order_id : String
  status : OrderStatus
  customer_name : String
  card_last4 : String
  amount : ℚ
  created_at : Nat
deriving DecidableEq, Repr

/-- A row of the `authorizations` table. -/
structure Auth where
  order_id : String
  provider_token : String
  amount : ℚ
  outcome : AuthOutcome
  created_at : Nat
deriving DecidableEq, Repr

/-- A row of the `settlements` table. -/
structure Settlement where
  order_id : String
  amount : ℚ
  outcome : SettlementOutcome
  created_at : Nat
deriving DecidableEq, Repr

/-- The whole SQLite database.  Lists are in rowid (insertion) order; the
`clock` supplies the `created_at` timestamp of the next inserted row. -/
structure Store where
  orders : List Order
  auths : List Auth
  settlements : List Settlement
  clock : Nat
deriving DecidableEq, Repr

/-- The empty database. -/
def emptyStore : Store := ⟨[], [], [], 0⟩

/-! ### Money helpers -/

/-- JavaScript `Math.round` (also the rounding of `toFixed` for the
nonnegative amounts used here): round half toward positive infinity. -/
def jsRound (q : ℚ) : ℤ := ⌊q + 1/2⌋

/-- `toMoney` from the routes: `Number(Number(n).toFixed(2))`, i.e. round
to two decimal places. -/
def toMoney (q : ℚ) : ℚ := (jsRound (q * 100) : ℚ) / 100

/-- `hasTwoDecimalsMax` from src/routes/settlements.js:
`Math.round(n * 100) === n * 100` (finiteness is implicit: `ℚ` has no
NaN/infinity). -/
def hasTwoDecimalsMax (q : ℚ) : Bool := decide ((jsRound (q * 100) : ℚ) = q * 100)

/-- A rational that is a whole number of cents. -/
def IsCents (q : ℚ) : Prop := ∃ n : ℤ, q * 100 = (n : ℚ)

/-! ### Database layer (src/db/index.js) -/

/-- `getOrder`: `SELECT * FROM orders WHERE order_id = ?` (first row). -/
def getOrder (s : Store) (oid : String) : Option Order :=
  s.orders.find? (fun o => o.order_id == oid)

/-- `createOrder`: `INSERT INTO orders ...`. -/
def createOrder (s : Store) (oid : String) (st : OrderStatus)
    (name last4v : String) (amt : ℚ) : Store :=
  { s with
    orders := s.orders ++ [⟨oid, st, name, last4v, amt, s.clock⟩],
    clock := s.clock + 1 }

/-- `updateOrderStatus`: `UPDATE orders SET status = ? WHERE order_id = ?`. -/
def updateOrderStatus (s : Store) (oid : String) (st : OrderStatus) : Store :=
  { s with
    orders := s.orders.map (fun o =>
      if o.order_id == oid then { o with status := st } else o) }

/-- Row with the greatest `created_at` (later rows win ties), the `ORDER BY
datetime(created_at) DESC [, rowid DESC] LIMIT 1` of the SQL queries. -/
def latestBy : List Auth → Option Auth
  | [] => none
  | a :: t =>
    match latestBy t with
    | none => some a
    | some b => if b.created_at < a.created_at then some a else some b

/-- `getAuthorizationByOrderId`: latest authorization row for the order,
regardless of outcome. -/
def getAuthorizationByOrderId (s : Store) (oid : String) : Option Auth :=
  latestBy (s.auths.filter (fun a => a.order_id == oid))

/-- `createAuthorization`: `INSERT INTO authorizations ...` (plain insert —
rows accumulate; reads pick the latest). -/
def createAuthorization (s : Store) (oid token : String) (amt : ℚ)
    (oc : AuthOutcome) : Store :=
  { s with
    auths := s.auths ++ [⟨oid, token, amt, oc, s.clock⟩],
    clock := s.clock + 1 }

/-- `sumSettlementsForOrder`: `SELECT COALESCE(SUM(amount),0) FROM
settlements WHERE order_id = ? AND outcome = 'SUCCESS'`. -/
def sumSettlementsForOrder (s : Store) (oid : String) : ℚ :=
  (s.settlements.filter
    (fun t => t.order_id == oid && t.outcome == SettlementOutcome.SUCCESS)
   ).foldl (fun acc t => acc + t.amount) 0

/-- `listSettlementsByOrderId` (insertion order coincides with the SQL
`ORDER BY datetime(created_at)` thanks to the monotone clock). -/
def listSettlementsByOrderId (s : Store) (oid : String) : List Settlement :=
  s.settlements.filter (fun t => t.order_id == oid)

/-- `createSettlement`: `INSERT INTO settlements ...`. -/
def createSettlement (s : Store) (oid : String) (amt : ℚ)
    (oc : SettlementOutcome) : Store :=
  { s with
    settlements := s.settlements ++ [⟨oid, amt, oc, s.clock⟩],
    clock := s.clock + 1 }

/-! ### Settlement engine (src/routes/settlements.js) -/

/-- A JavaScript number input: a finite rational or NaN/±Infinity. -/
inductive JsNum
  | num (q : ℚ)
  | nonfinite
deriving DecidableEq, Repr

/-- Business error codes of the settlement route. -/
inductive SettleErr
  | BAD_REQUEST
  | INVALID_AMOUNT
  | INVALID_AMOUNT_PRECISION
  | ORDER_NOT_FOUND
  | NO_APPROVED_AUTH
  | AMOUNT_EXCEEDS_AVAILABLE
deriving DecidableEq, Repr

/-- Response of the settlement route. -/
inductive SettleResult
  | ok (status : OrderStatus) (availableToSettle : ℚ)
  | err (code : SettleErr) (availableToSettle : Option ℚ)
deriving DecidableEq, Repr

/-- The error code of a settlement response, if any. -/
def SettleResult.code? : SettleResult → Option SettleErr
  | .ok _ _ => none
  | .err c _ => some c

/-- `POST /api/settlements` (src/routes/settlements.js): the returned
result together with the database after the call.  `orderId` is the id
after the route's transport normalization (`(orderId ?? '').toString().trim()`)
and `amount` is the result of `Number(amount)` — a finite rational or
NaN/±Infinity. -/
def settle (s : Store) (orderId : String) (amount : JsNum) :
    SettleResult × Store :=
  match amount with
  | .nonfinite => (.err .BAD_REQUEST none, s)
  | .num amt =>
    if orderId = "" then (.err .BAD_REQUEST none, s)
    else if amt ≤ 0 then (.err .INVALID_AMOUNT none, s)
    else if ¬ hasTwoDecimalsMax amt then (.err .INVALID_AMOUNT_PRECISION none, s)
    else
      match getOrder s orderId with
      | none => (.err .ORDER_NOT_FOUND none, s)
      | some _ =>
        match getAuthorizationByOrderId s orderId with
        | none => (.err .NO_APPROVED_AUTH none, s)
        | some auth =>
          if auth.outcome ≠ AuthOutcome.SUCCESS then
            (.err .NO_APPROVED_AUTH none, s)
          else
            let settledSoFar := sumSettlementsForOrder s orderId
            let authorized := toMoney auth.amount
            let available := toMoney (authorized - settledSoFar)
            if available < amt then
              (.err .AMOUNT_EXCEEDS_AVAILABLE (some available), s)
            else
              let s1 := createSettlement s orderId (toMoney amt)
                          SettlementOutcome.SUCCESS
              let remaining := toMoney (available - amt)
              let newStatus := if remaining = 0 then OrderStatus.SETTLED
                               else OrderStatus.AUTHORIZED
              (.ok newStatus remaining, updateOrderStatus s1 orderId newStatus)

/-! ### Authorization workflow (src/routes/authorize.js) -/

/-- Customer block of the canonical request body (only the fields the
route persists). -/
structure Customer where
  firstName : String
  lastName : String
deriving DecidableEq, Repr

/-- Card block of the canonical request body. -/
structure Card where
  number : String
  expMonth : String
  expYear : String
  cvv : String
deriving DecidableEq, Repr

/-- Response of the external provider as observed by the route: a
transport/network failure, or an HTTP status with the `Success` flag
and `Reason` text the body may carry. -/
inductive ProviderResp
  | netError
  | http (status : Nat) (success : Option Bool) (reason : Option String)
deriving DecidableEq, Repr

/-- `pat` matches at the head of `hay`. -/
def charsStartWith : List Char → List Char → Bool
  | [], _ => true
  | _ :: _, [] => false
  | p :: ps, h :: hs => p == h && charsStartWith ps hs

/-- `pat` occurs somewhere in the character list (JavaScript
`String.prototype.includes`). -/
def charsContain (pat : List Char) : List Char → Bool
  | [] => pat.isEmpty
  | h :: t => charsStartWith pat (h :: t) || charsContain pat t

/-- JavaScript `hay.includes(pat)`. -/
def strContains (hay pat : String) : Bool := charsContain pat.data hay.data

/-- JavaScript `s.toLowerCase()`. -/
def lowerStr (x : String) : String := x.map Char.toLower

/-- `last4` from src/routes/authorize.js:
`(pan.replace(/\D/g, '').slice(-4) || '0000')`. -/
def last4 (pan : String) : String :=
  let ds := pan.data.filter Char.isDigit
  let t := ds.drop (ds.length - 4)
  if t.isEmpty then "0000" else String.mk t

/-- Mapping of the provider status and body to an outcome
(src/routes/authorize.js, the `--- map provider status & body ---` block;
a network failure sets `providerStatus = 500` and so falls to the default
SERVER_ERROR). -/
def mapProviderOutcome : ProviderResp → AuthOutcome
  | .netError => .SERVER_ERROR
  | .http status success reason =>
    if status = 200 then
      let r := lowerStr (reason.getD "")
      if success = some true then .SUCCESS
      else if strContains r "insufficient" then .INSUFFICIENT_FUNDS
      else if strContains r "incorrect" || strContains r "invalid" then .INCORRECT_DETAILS
      else .SERVER_ERROR
    else if status = 402 then .INSUFFICIENT_FUNDS
    else if status = 422 then .INCORRECT_DETAILS
    else .SERVER_ERROR

/-- Response of the authorization route. -/
inductive AuthorizeResult
  | authorized (token maskedCard : String) (amount : ℚ)
  | declined (code : AuthOutcome)
  | providerError
  | badRequest
  | invalidAmount
deriving DecidableEq, Repr

/-- `POST /api/authorize` (src/routes/authorize.js) after the body
normalization: `orderId` and the `customer`/`card` blocks are the
canonical shapes the normalization always produces, `requestedAmount` is
`none` when the body carries no numeric amount, and `provider` is the
response of the awaited `fetch` to the mock provider. -/
def authorize (s : Store) (orderId : String) (customer : Customer)
    (card : Card) (requestedAmount : Option JsNum) (provider : ProviderResp) :
    AuthorizeResult × Store :=
  if orderId = "" then (.badRequest, s)
  else
    match requestedAmount with
    | none => (.badRequest, s)
    | some .nonfinite => (.invalidAmount, s)
    | some (.num amt) =>
      if amt ≤ 0 then (.invalidAmount, s)
      else
        let s1 :=
          match getOrder s orderId with
          | some _ => s
          | none =>
            createOrder s orderId OrderStatus.PENDING
              ((customer.firstName ++ " " ++ customer.lastName).trim)
              (last4 card.number) (toMoney amt)
        let outcome := mapProviderOutcome provider
        let token := "STATIC_TOKEN_" ++ orderId
        let s2 := createAuthorization s1 orderId token (toMoney amt) outcome
        match outcome with
        | .SUCCESS =>
          (.authorized token ("**** **** **** " ++ last4 card.number) (toMoney amt),
           updateOrderStatus s2 orderId OrderStatus.AUTHORIZED)
        | .INSUFFICIENT_FUNDS =>
          (.declined .INSUFFICIENT_FUNDS, updateOrderStatus s2 orderId OrderStatus.ERROR)
        | .INCORRECT_DETAILS =>
          (.declined .INCORRECT_DETAILS, updateOrderStatus s2 orderId OrderStatus.ERROR)
        | .SERVER_ERROR =>
          (.providerError, updateOrderStatus s2 orderId OrderStatus.ERROR)

/-! ### Order details (src/routes/orders.js, GET /api/orders/:id) -/

/-- Detail block returned to the Settlement UI. -/
structure OrderDetails where
  order : Order
  authorization : Option Auth
  settlements : List Settlement
  availableToSettle : ℚ
deriving DecidableEq, Repr

/-- `GET /api/orders/:id`: `availableToSettle =
Math.max(0, Number((authorizedAmt - settled).toFixed(2)))` where
`authorizedAmt = authorization?.amount ?? 0` comes from the latest
authorization row regardless of outcome. -/
def getOrderDetails (s : Store) (oid : String) : Option OrderDetails :=
  match getOrder s oid with
  | none => none
  | some o =>
    let authorization := getAuthorizationByOrderId s oid
    let settled := sumSettlementsForOrder s oid
    let authorizedAmt := match authorization with | some a => a.amount | none => 0
    some ⟨o, authorization, listSettlementsByOrderId s oid,
          max 0 (toMoney (authorizedAmt - settled))⟩

/-! ### Consistency audit (scripts/verify-db-consistency.js) -/

/-- Defects the audit reports, tagged with the offending order id. -/
inductive Defect
  | duplicateOrderId (oid : String)
  | orphanAuthorization (oid : String)
  | orphanSettlement (oid : String)
  | orderAmountPrecision (oid : String)
  | authAmountPrecision (oid : String)
  | settlementAmountInvalid (oid : String)
  | overSettlement (oid : String)
  | settlementMismatch (oid : String)
  | settlementsWithoutAuth (oid : String)
deriving DecidableEq, Repr

/-- `isTwoDecimals` from scripts/verify-db-consistency.js (same check as
`hasTwoDecimalsMax`). -/
def isTwoDecimals (q : ℚ) : Bool := decide ((jsRound (q * 100) : ℚ) = q * 100)

/-- The audit's per-order query: latest authorization with outcome
SUCCESS (`ORDER BY datetime(created_at) DESC, rowid DESC LIMIT 1`). -/
def latestSuccessAuth (s : Store) (oid : String) : Option Auth :=
  latestBy (s.auths.filter
    (fun a => a.order_id == oid && a.outcome == AuthOutcome.SUCCESS))

/-- Per-order business-rule checks of the audit (Rule A over-settlement,
Rule B SETTLED mismatch, and the no-successful-auth check). -/
def orderDefects (s : Store) (o : Order) : List Defect :=
  match latestSuccessAuth s o.order_id with
  | some auth =>
    let settledTotal := sumSettlementsForOrder s o.order_id
    let authAmount := auth.amount
    (if authAmount + 1/1000000000 < settledTotal
     then [Defect.overSettlement o.order_id] else [])
    ++ (if o.status = OrderStatus.SETTLED ∧ 1/1000000000 < |settledTotal - authAmount|
        then [Defect.settlementMismatch o.order_id] else [])
  | none =>
    if 0 < sumSettlementsForOrder s o.order_id
    then [Defect.settlementsWithoutAuth o.order_id] else []

/-- `scripts/verify-db-consistency.js`: every reported defect, in the
script's emission order, together with the database after the run (the
script only issues SELECT statements). -/
def runConsistencyAudit (s : Store) : List Defect × Store :=
  let ids := s.orders.map (fun o => o.order_id)
  let dupDefects := (ids.dedup.filter (fun i => decide (1 < ids.count i))).map
    Defect.duplicateOrderId
  let authOrphans := (s.auths.filter
    (fun a => ! s.orders.any (fun o => o.order_id == a.order_id))).map
    (fun a => Defect.orphanAuthorization a.order_id)
  let setOrphans := (s.settlements.filter
    (fun t => ! s.orders.any (fun o => o.order_id == t.order_id))).map
    (fun t => Defect.orphanSettlement t.order_id)
  let badOrderAmounts := (s.orders.filter
    (fun o => ! isTwoDecimals o.amount)).map
    (fun o => Defect.orderAmountPrecision o.order_id)
  let badAuthAmounts := (s.auths.filter
    (fun a => ! isTwoDecimals a.amount)).map
    (fun a => Defect.authAmountPrecision a.order_id)
  let badSettleAmounts := (s.settlements.filter
    (fun t => ! isTwoDecimals t.amount || decide (t.amount < 0))).map
    (fun t => Defect.settlementAmountInvalid t.order_id)
  let perOrder := (s.orders.map (orderDefects s)).flatten
  (dupDefects ++ authOrphans ++ setOrphans ++ badOrderAmounts
     ++ badAuthAmounts ++ badSettleAmounts ++ perOrder, s)

/-! ### Spec-side definitions (for refinement-style claims) -/

/-- Modelled from the spec: the ordered precondition list of §4.2, read
verbatim — the first failing check's code, `none` when all pass. -/
def specFirstError (s : Store) (orderId : String) (amount : JsNum) :
    Option SettleErr :=
  match amount with
  | .nonfinite => some .BAD_REQUEST
  | .num amt =>
    if orderId = "" then some .BAD_REQUEST
    else if amt ≤ 0 then some .INVALID_AMOUNT
    else if ¬ hasTwoDecimalsMax amt then some .INVALID_AMOUNT_PRECISION
    else if (getOrder s orderId).isNone then some .ORDER_NOT_FOUND
    else if ¬ ((getAuthorizationByOrderId s orderId).any
                (fun a => a.outcome == AuthOutcome.SUCCESS)) then
      some .NO_APPROVED_AUTH
    else
      match getAuthorizationByOrderId s orderId with
      | none => some .NO_APPROVED_AUTH
      | some auth =>
        let available :=
          toMoney (toMoney auth.amount - sumSettlementsForOrder s orderId)
        if available < amt then some .AMOUNT_EXCEEDS_AVAILABLE else none

/-- Modelled from the spec: the provider-response-to-outcome table of
§4.1, read bullet by bullet in order. -/
def specOutcome : ProviderResp → AuthOutcome
  | .netError => .SERVER_ERROR
  | .http status success reason =>
    if status = 200 then
      if success = some true then .SUCCESS
      else if strContains (lowerStr (reason.getD "")) "insufficient" then
        .INSUFFICIENT_FUNDS
      else if strContains (lowerStr (reason.getD "")) "incorrect"
              || strContains (lowerStr (reason.getD "")) "invalid" then
        .INCORRECT_DETAILS
      else .SERVER_ERROR
    else if status = 402 then .INSUFFICIENT_FUNDS
    else if status = 422 then .INCORRECT_DETAILS
    else .SERVER_ERROR

/-- `available` as the settlement route computes it for an order that has
a current authorization (0 when there is none). -/
def availableOf (s : Store) (oid : String) : ℚ :=
  match getAuthorizationByOrderId s oid with
  | none => 0
  | some auth => toMoney (toMoney auth.amount - sumSettlementsForOrder s oid)

/-! ### Invariants -/

/-- All monetary fields carry at most two decimal digits. -/
def MoneyOK (s : Store) : Prop :=
  (∀ o ∈ s.orders, IsCents o.amount) ∧ (∀ a ∈ s.auths, IsCents a.amount) ∧
    (∀ t ∈ s.settlements, IsCents t.amount)

/-- All row timestamps are in the past of the store clock. -/
def ClockOK (s : Store) : Prop :=
  (∀ o ∈ s.orders, o.created_at < s.clock) ∧
    (∀ a ∈ s.auths, a.created_at < s.clock) ∧
    (∀ t ∈ s.settlements, t.created_at < s.clock)

/-- A consistent store: two-decimal money and monotone timestamps. -/
def Consistent (s : Store) : Prop := MoneyOK s ∧ ClockOK s

/-- The settlement invariant of §3: for every order with a latest SUCCESS
authorization, the SUCCESS-settlement total stays within the authorized
amount, tolerance 1e-9. -/
def SettleInv (s : Store) : Prop :=
  ∀ oid a, latestSuccessAuth s oid = some a →
    sumSettlementsForOrder s oid ≤ a.amount + 1/1000000000

/-! ### Money lemmas -/

theorem jsRound_intCast (n : ℤ) : jsRound (n : ℚ) = n := by
  unfold jsRound
  rw [add_comm, Int.floor_add_int]
  norm_num

theorem toMoney_of_isCents {q : ℚ} (h : IsCents q) : toMoney q = q := by
  obtain ⟨n, hn⟩ := h
  unfold toMoney
  rw [hn, jsRound_intCast]
  field_simp
  linarith [hn]

theorem isCents_toMoney (q : ℚ) : IsCents (toMoney q) := by
  refine ⟨jsRound (q * 100), ?_⟩
  unfold toMoney
  field_simp

theorem hasTwoDecimalsMax_iff {q : ℚ} : hasTwoDecimalsMax q = true ↔ IsCents q := by
  unfold hasTwoDecimalsMax
  rw [decide_eq_true_iff]
  constructor
  · intro h
    exact ⟨jsRound (q * 100), h.symm⟩
  · rintro ⟨n, hn⟩
    rw [hn, jsRound_intCast]

theorem isCents_add {a b : ℚ} (ha : IsCents a) (hb : IsCents b) : IsCents (a + b) := by
  obtain ⟨m, hm⟩ := ha
  obtain ⟨n, hn⟩ := hb
  exact ⟨m + n, by push_cast; rw [add_mul, hm, hn]⟩

theorem isCents_sub {a b : ℚ} (ha : IsCents a) (hb : IsCents b) : IsCents (a - b) := by
  obtain ⟨m, hm⟩ := ha
  obtain ⟨n, hn⟩ := hb
  exact ⟨m - n, by push_cast; rw [sub_mul, hm, hn]⟩

theorem isCents_zero : IsCents 0 := ⟨0, by norm_num⟩

theorem isCents_foldl {l : List Settlement} {c : ℚ}
    (hc : IsCents c) (hl : ∀ t ∈ l, IsCents t.amount) :
    IsCents (l.foldl (fun acc t => acc + t.amount) c) := by
  induction l generalizing c with
  | nil => exact hc
  | cons h t ih =>
    exact ih (isCents_add hc (hl h (List.mem_cons_self h t)))
      (fun x hx => hl x (List.mem_cons_of_mem h hx))

/-! ### latestBy lemmas -/

theorem latestBy_eq_none {l : List Auth} : latestBy l = none ↔ l = [] := by
  cases l with
  | nil => simp [latestBy]
  | cons a t =>
    simp only [latestBy]
    constructor
    · intro hx
      exfalso
      split at hx
      · simp at hx
      · split at hx <;> simp at hx
    · intro hx
      simp at hx

theorem latestBy_mem {l : List Auth} {x : Auth} (h : latestBy l = some x) : x ∈ l := by
  induction l with
  | nil => simp [latestBy] at h
  | cons a t ih =>
    simp only [latestBy] at h
    split at h
    · simp at h
      simp [h]
    · rename_i b hb
      split at h
      · simp at h
        simp [h]
      · simp at h
        subst h
        exact List.mem_cons_of_mem a (ih hb)

theorem latestBy_le {l : List Auth} {x : Auth} (h : latestBy l = some x) :
    ∀ y ∈ l, y.created_at ≤ x.created_at := by
  induction l generalizing x with
  | nil => simp
  | cons a t ih =>
    simp only [latestBy] at h
    intro y hy
    rcases List.mem_cons.mp hy with rfl | hy
    · split at h
      · simp at h
        subst h
        exact le_refl _
      · rename_i b hb
        split at h
        · simp at h
          subst h
          exact le_refl _
        · rename_i hlt
          simp at h
          subst h
          exact le_of_not_lt hlt
    · split at h
      · rename_i hb
        have ht : t = [] := latestBy_eq_none.mp hb
        subst ht
        simp at hy
      · rename_i b hb
        split at h
        · rename_i hlt
          simp at h
          subst h
          exact le_trans (ih hb y hy) (le_of_lt hlt)
        · simp at h
          subst h
          exact ih hb y hy

theorem filter_eq_nil_of_stronger {l : List Auth} {p q : Auth → Bool}
    (h : l.filter p = []) : l.filter (fun a => p a && q a) = [] := by
  induction l with
  | nil => rfl
  | cons a t ih =>
    by_cases hp : p a = true
    · rw [List.filter_cons_of_pos hp] at h
      simp at h
    · rw [List.filter_cons_of_neg (by simpa using hp)] at h
      rw [List.filter_cons_of_neg (by simp [hp])]
      exact ih h

theorem latestBy_filter_and {l : List Auth} {p q : Auth → Bool} {x : Auth}
    (h : latestBy (l.filter p) = some x) (hq : q x = true) :
    latestBy (l.filter (fun a => p a && q a)) = some x := by
  induction l with
  | nil => simp [latestBy] at h
  | cons a t ih =>
    by_cases hp : p a = true
    · rw [List.filter_cons_of_pos hp] at h
      simp only [latestBy] at h
      split at h
      · rename_i hnone
        have hxa : a = x := by simpa using h
        subst hxa
        have ht' : t.filter (fun b => p b && q b) = [] :=
          filter_eq_nil_of_stronger (latestBy_eq_none.mp hnone)
        rw [List.filter_cons_of_pos (by simp [hp, hq])]
        simp [latestBy, ht']
      · rename_i b hb
        by_cases hlt : b.created_at < a.created_at
        · rw [if_pos hlt] at h
          have hxa : a = x := by simpa using h
          subst hxa
          rw [List.filter_cons_of_pos (by simp [hp, hq])]
          simp only [latestBy]
          cases hc : latestBy (t.filter fun b => p b && q b) with
          | none => rfl
          | some c =>
            have hm := latestBy_mem hc
            rw [List.mem_filter] at hm
            have hcmem : c ∈ t.filter p :=
              List.mem_filter.mpr ⟨hm.1, ((Bool.and_eq_true _ _).mp hm.2).1⟩
            have hcb : c.created_at ≤ b.created_at := latestBy_le hb c hcmem
            show (if c.created_at < a.created_at then some a else some c) = some a
            rw [if_pos (lt_of_le_of_lt hcb hlt)]
        · rw [if_neg hlt] at h
          have hxb : b = x := by simpa using h
          subst hxb
          by_cases hqa : q a = true
          · rw [List.filter_cons_of_pos (by simp [hp, hqa])]
            simp only [latestBy]
            rw [ih hb]
            show (if b.created_at < a.created_at then some a else some b) = some b
            rw [if_neg hlt]
          · rw [List.filter_cons_of_neg (by simp [hp, hqa])]
            exact ih hb
    · rw [List.filter_cons_of_neg (by simpa using hp)] at h
      rw [List.filter_cons_of_neg (by simp [hp])]
      exact ih h

/-! ### Step lemmas for the store operations -/

theorem latestSuccessAuth_updateOrderStatus (s : Store) (oid : String)
    (st : OrderStatus) (oid' : String) :
    latestSuccessAuth (updateOrderStatus s oid st) oid' = latestSuccessAuth s oid' := rfl

theorem latestSuccessAuth_createSettlement (s : Store) (oid : String) (amt : ℚ)
    (oc : SettlementOutcome) (oid' : String) :
    latestSuccessAuth (createSettlement s oid amt oc) oid' = latestSuccessAuth s oid' := rfl

theorem getAuthorization_updateOrderStatus (s : Store) (oid : String)
    (st : OrderStatus) (oid' : String) :
    getAuthorizationByOrderId (updateOrderStatus s oid st) oid'
      = getAuthorizationByOrderId s oid' := rfl

theorem getAuthorization_createSettlement (s : Store) (oid : String) (amt : ℚ)
    (oc : SettlementOutcome) (oid' : String) :
    getAuthorizationByOrderId (createSettlement s oid amt oc) oid'
      = getAuthorizationByOrderId s oid' := rfl

theorem sumSettlements_updateOrderStatus (s : Store) (oid : String)
    (st : OrderStatus) (oid' : String) :
    sumSettlementsForOrder (updateOrderStatus s oid st) oid'
      = sumSettlementsForOrder s oid' := rfl

theorem sumSettlements_createOrder (s : Store) (oid : String) (st : OrderStatus)
    (name last4v : String) (amt : ℚ) (oid' : String) :
    sumSettlementsForOrder (createOrder s oid st name last4v amt) oid'
      = sumSettlementsForOrder s oid' := rfl

theorem sumSettlements_createAuthorization (s : Store) (oid token : String)
    (amt : ℚ) (oc : AuthOutcome) (oid' : String) :
    sumSettlementsForOrder (createAuthorization s oid token amt oc) oid'
      = sumSettlementsForOrder s oid' := rfl

theorem foldl_add_amount (l : List Settlement) (c : ℚ) :
    l.foldl (fun acc t => acc + t.amount) c
      = c + l.foldl (fun acc t => acc + t.amount) 0 := by
  induction l generalizing c with
  | nil => simp
  | cons h t ih =>
    simp only [List.foldl_cons]
    rw [ih (c + h.amount), ih (0 + h.amount)]
    ring

theorem sumSettlements_createSettlement (s : Store) (oid : String) (amt : ℚ)
    (oc : SettlementOutcome) (oid' : String) :
    sumSettlementsForOrder (createSettlement s oid amt oc) oid'
      = sumSettlementsForOrder s oid'
        + (if oid = oid' ∧ oc = SettlementOutcome.SUCCESS then amt else 0) := by
  unfold sumSettlementsForOrder createSettlement
  simp only [List.filter_append, List.foldl_append]
  by_cases h : oid = oid' ∧ oc = SettlementOutcome.SUCCESS
  · obtain ⟨h1, h2⟩ := h
    subst h1
    subst h2
    rw [if_pos ⟨rfl, rfl⟩]
    rw [List.filter_cons_of_pos (by simp)]
    simp
  · rw [if_neg h]
    rw [List.filter_cons_of_neg ?side, List.filter_nil, List.foldl_nil, add_zero]
    case side =>
      simp only [Bool.and_eq_true, beq_iff_eq, not_and]
      intro h1 h2
      exact h ⟨h1, h2⟩

theorem latestBy_append_singleton {l : List Auth} {a : Auth}
    (h : ∀ y ∈ l, y.created_at ≤ a.created_at) : latestBy (l ++ [a]) = some a := by
  induction l with
  | nil => simp [latestBy]
  | cons x t ih =>
    have ht := ih (fun y hy => h y (List.mem_cons_of_mem x hy))
    have hx : latestBy ((x :: t) ++ [a])
        = match latestBy (t ++ [a]) with
          | none => some x
          | some b => if b.created_at < x.created_at then some x else some b := rfl
    rw [hx, ht]
    show (if a.created_at < x.created_at then some x else some a) = some a
    rw [if_neg (not_lt.mpr (h x (List.mem_cons_self x t)))]

theorem latestSuccessAuth_createAuthorization_success (s : Store)
    (oid token : String) (amt : ℚ)
    (hck : ∀ y ∈ s.auths, y.created_at < s.clock) :
    latestSuccessAuth (createAuthorization s oid token amt AuthOutcome.SUCCESS) oid
      = some ⟨oid, token, amt, AuthOutcome.SUCCESS, s.clock⟩ := by
  unfold latestSuccessAuth createAuthorization
  simp only [List.filter_append]
  rw [List.filter_cons_of_pos (by simp), List.filter_nil]
  exact latestBy_append_singleton (fun y hy =>
    le_of_lt (hck y (List.mem_filter.mp hy).1))

theorem latestSuccessAuth_createAuthorization_of_ne (s : Store)
    (oid token : String) (amt : ℚ) (oc : AuthOutcome) (oid' : String)
    (h : ¬ (oid = oid' ∧ oc = AuthOutcome.SUCCESS)) :
    latestSuccessAuth (createAuthorization s oid token amt oc) oid'
      = latestSuccessAuth s oid' := by
  unfold latestSuccessAuth createAuthorization
  simp only [List.filter_append]
  rw [List.filter_cons_of_neg ?side, List.filter_nil, List.append_nil]
  case side =>
    simp only [Bool.and_eq_true, beq_iff_eq, not_and]
    intro h1 h2
    exact h ⟨h1, h2⟩

theorem latestSuccessAuth_createOrder (s : Store) (oid : String)
    (st : OrderStatus) (name last4v : String) (amt : ℚ) (oid' : String) :
    latestSuccessAuth (createOrder s oid st name last4v amt) oid'
      = latestSuccessAuth s oid' := rfl

theorem isCents_sumSettlements (s : Store) (oid : String)
    (h : ∀ t ∈ s.settlements, IsCents t.amount) :
    IsCents (sumSettlementsForOrder s oid) := by
  unfold sumSettlementsForOrder
  exact isCents_foldl isCents_zero
    (fun t ht => h t (List.mem_filter.mp ht).1)

/-! ### C3: validation order of the settlement route -/

/-- The settlement route's error code is exactly the spec's first
failing check (shared helper). -/
theorem settle_code_eq_spec (s : Store) (oid : String) (amt : JsNum) :
    (settle s oid amt).1.code? = specFirstError s oid amt := by
  cases amt with
  | nonfinite => rfl
  | num q =>
    by_cases h1 : oid = ""
    · simp [settle, specFirstError, h1, SettleResult.code?]
    · by_cases h2 : q ≤ 0
      · simp [settle, specFirstError, h1, h2, SettleResult.code?]
      · by_cases h3 : hasTwoDecimalsMax q
        · cases ho : getOrder s oid with
          | none =>
            simp [settle, specFirstError, h1, h2, h3, ho, SettleResult.code?]
          | some o =>
            cases ha : getAuthorizationByOrderId s oid with
            | none =>
              simp [settle, specFirstError, h1, h2, h3, ho, ha,
                SettleResult.code?, Option.any]
            | some a =>
              by_cases h4 : a.outcome = AuthOutcome.SUCCESS
              · by_cases h5 :
                  toMoney (toMoney a.amount - sumSettlementsForOrder s oid) < q
                · simp [settle, specFirstError, h1, h2, h3, ho, ha, h4, h5,
                    SettleResult.code?, Option.any]
                · simp [settle, specFirstError, h1, h2, h3, ho, ha, h4, h5,
                    SettleResult.code?, Option.any]
              · simp [settle, specFirstError, h1, h2, h3, ho, ha, h4,
                  SettleResult.code?, Option.any]
        · simp [settle, specFirstError, h1, h2, h3, SettleResult.code?]

/-- Claim C3: for every input, the settlement route's error code is the
code of the first failing check in the fixed order BAD_REQUEST,
INVALID_AMOUNT, INVALID_AMOUNT_PRECISION, ORDER_NOT_FOUND,
NO_APPROVED_AUTH, AMOUNT_EXCEEDS_AVAILABLE (`specFirstError`, written
from the spec's ordered list), so the code for any input is
deterministic. -/
theorem C3_settle_error_order (s : Store) (oid : String) (amt : JsNum) :
    (settle s oid amt).1.code? = specFirstError s oid amt :=
  settle_code_eq_spec s oid amt

/-! ### C4: rejected settlements leave the store untouched -/

/-- Claim C4: whenever the settlement route returns an error code, the
store is completely unchanged — no Settlement row is appended and no
order status is updated — and an AMOUNT_EXCEEDS_AVAILABLE error carries
the current available amount in its payload. -/
theorem C4_settle_error_no_write (s : Store) (oid : String) (amt : JsNum) :
    ((settle s oid amt).1.code?.isSome → (settle s oid amt).2 = s) ∧
      ((settle s oid amt).1.code? = some SettleErr.AMOUNT_EXCEEDS_AVAILABLE →
        (settle s oid amt).1 = SettleResult.err SettleErr.AMOUNT_EXCEEDS_AVAILABLE
          (some (availableOf s oid))) := by
  cases amt with
  | nonfinite => exact ⟨fun _ => rfl, by simp [settle, SettleResult.code?]⟩
  | num q =>
    by_cases h1 : oid = ""
    · simp [settle, SettleResult.code?, h1]
    · by_cases h2 : q ≤ 0
      · simp [settle, SettleResult.code?, h1, h2]
      · by_cases h3 : hasTwoDecimalsMax q
        · cases ho : getOrder s oid with
          | none => simp [settle, SettleResult.code?, h1, h2, h3, ho]
          | some o =>
            cases ha : getAuthorizationByOrderId s oid with
            | none => simp [settle, SettleResult.code?, h1, h2, h3, ho, ha]
            | some a =>
              by_cases h4 : a.outcome = AuthOutcome.SUCCESS
              · by_cases h5 :
                  toMoney (toMoney a.amount - sumSettlementsForOrder s oid) < q
                · simp [settle, SettleResult.code?, availableOf,
                    h1, h2, h3, ho, ha, h4, h5]
                · simp [settle, SettleResult.code?, h1, h2, h3, ho, ha, h4, h5]
              · simp [settle, SettleResult.code?, h1, h2, h3, ho, ha, h4]
        · simp [settle, SettleResult.code?, h1, h2, h3]

/-- Witness for C4 at a concrete input: settling an unknown order is
rejected (ORDER_NOT_FOUND) and the store is unchanged. -/
theorem C4_settle_error_no_write_witness :
    (settle emptyStore "ORD-9" (JsNum.num 1)).2 = emptyStore :=
  (C4_settle_error_no_write emptyStore "ORD-9" (JsNum.num 1)).1
    (by
      norm_num [settle, hasTwoDecimalsMax, jsRound, getOrder, emptyStore,
        SettleResult.code?]
      simp)

/-! ### C7: cent-precision check -/

/-- A store with one AUTHORIZED order `ORD-1` backed by a SUCCESS
authorization over 100.00 and no settlements (shared by several
witnesses). -/
def sampleStore : Store :=
  ⟨[⟨"ORD-1", OrderStatus.AUTHORIZED, "Ada L", "4242", 100, 0⟩],
   [⟨"ORD-1", "STATIC_TOKEN_ORD-1", 100, AuthOutcome.SUCCESS, 1⟩], [], 2⟩

/-- Claim C7: for every positive finite amount (and any non-empty order
id), the settlement route answers INVALID_AMOUNT_PRECISION exactly when
the cent-scaling equality `Math.round(amount*100) === amount*100` fails,
and that equality holds exactly when the amount is a whole number of
cents (at most 2 decimal digits). -/
theorem C7_settle_precision (s : Store) (oid : String) (q : ℚ)
    (hne : ¬ oid = "") (hpos : 0 < q) :
    ((settle s oid (JsNum.num q)).1.code? = some SettleErr.INVALID_AMOUNT_PRECISION
        ↔ ¬ IsCents q)
      ∧ (hasTwoDecimalsMax q = true ↔ IsCents q) := by
  refine ⟨?_, hasTwoDecimalsMax_iff⟩
  rw [settle_code_eq_spec]
  by_cases h3 : hasTwoDecimalsMax q
  · have hc : IsCents q := hasTwoDecimalsMax_iff.mp h3
    constructor
    · intro hcode
      exfalso
      simp only [specFirstError, if_neg hne, if_neg (not_le.mpr hpos)] at hcode
      rw [if_neg (by simp [h3])] at hcode
      cases hgo : getOrder s oid with
      | none => simp [hgo] at hcode
      | some o =>
        cases hga : getAuthorizationByOrderId s oid with
        | none => simp [hgo, hga, Option.any] at hcode
        | some a =>
          by_cases h4 : a.outcome = AuthOutcome.SUCCESS
          · by_cases h5 :
              toMoney (toMoney a.amount - sumSettlementsForOrder s oid) < q
            · simp [hgo, hga, h4, h5, Option.any] at hcode
            · simp [hgo, hga, h4, h5, Option.any] at hcode
          · simp [hgo, hga, h4, Option.any] at hcode
    · intro hq
      exact absurd hc hq
  · have hc : ¬ IsCents q := fun c => h3 (hasTwoDecimalsMax_iff.mpr c)
    simp [specFirstError, hne, not_le.mpr hpos, h3, hc]

/-- Witness for C7: amount 10.005 is rejected as INVALID_AMOUNT_PRECISION
and amount 10.00 passes every check on the sample store. -/
theorem C7_settle_precision_witness :
    ((settle sampleStore "ORD-1" (JsNum.num (10005/1000))).1.code?
        = some SettleErr.INVALID_AMOUNT_PRECISION)
      ∧ (settle sampleStore "ORD-1" (JsNum.num 10)).1.code? = none := by
  constructor
  · refine (C7_settle_precision sampleStore "ORD-1" (10005/1000)
      (by simp) (by norm_num)).1.mpr ?_
    rintro ⟨n, hn⟩
    norm_num at hn
    have h2 : (2001 : ℚ) = 2 * n := by linarith
    have h3 : (2001 : ℤ) = 2 * n := by exact_mod_cast h2
    omega
  · norm_num [settle, SettleResult.code?, hasTwoDecimalsMax, jsRound, getOrder,
      getAuthorizationByOrderId, latestBy, sumSettlementsForOrder, toMoney,
      sampleStore, List.find?, List.filter, List.foldl]
    simp

/-! ### C2: the success path of the settlement route -/

/-- Claim C2 (amended: the amount must also carry at most 2 decimal
digits and the order id be non-empty): for an order with a current
SUCCESS authorization and an amount with 0 < amount ≤ available that
passes the cent-precision check, `settle` appends exactly one SUCCESS
settlement of the (cent-rounded, here exact) amount, sets the status to
SETTLED exactly when the recomputed remaining is 0 and to AUTHORIZED
otherwise, returns that status with `remaining` as availableToSettle,
and the available amount decreases by exactly the settled amount. -/
theorem C2_settle_success (s : Store) (oid : String) (ord : Order) (a : Auth)
    (q : ℚ)
    (hne : ¬ oid = "")
    (hord : getOrder s oid = some ord)
    (hauth : getAuthorizationByOrderId s oid = some a)
    (hsucc : a.outcome = AuthOutcome.SUCCESS)
    (hprec : hasTwoDecimalsMax q = true)
    (hpos : 0 < q)
    (hle : q ≤ availableOf s oid) :
    settle s oid (JsNum.num q)
      = (SettleResult.ok
           (if toMoney (availableOf s oid - q) = 0 then OrderStatus.SETTLED
            else OrderStatus.AUTHORIZED)
           (toMoney (availableOf s oid - q)),
         { orders := s.orders.map (fun o =>
             if o.order_id == oid then
               { o with status :=
                   if toMoney (availableOf s oid - q) = 0 then OrderStatus.SETTLED
                   else OrderStatus.AUTHORIZED }
             else o),
           auths := s.auths,
           settlements := s.settlements
             ++ [⟨oid, toMoney q, SettlementOutcome.SUCCESS, s.clock⟩],
           clock := s.clock + 1 })
      ∧ toMoney q = q
      ∧ availableOf s oid - toMoney (availableOf s oid - q) = q := by
  have hcq : IsCents q := hasTwoDecimalsMax_iff.mp hprec
  have hav : availableOf s oid
      = toMoney (toMoney a.amount - sumSettlementsForOrder s oid) := by
    simp [availableOf, hauth]
  have hsub : toMoney (availableOf s oid - q) = availableOf s oid - q := by
    refine toMoney_of_isCents (isCents_sub ?_ hcq)
    rw [hav]
    exact isCents_toMoney _
  refine ⟨?_, toMoney_of_isCents hcq, by rw [hsub]; ring⟩
  simp only [settle, hord, hauth, if_neg hne, if_neg (not_le.mpr hpos)]
  rw [if_neg (by simp [hprec]), if_neg (by simp [hsucc]),
    if_neg (by rw [← hav]; exact not_lt.mpr hle)]
  rw [← hav]
  simp [updateOrderStatus, createSettlement]

/-- Counterexample to C2 as literally stated: on the sample store the
amount 0.005 satisfies 0 < amount ≤ available (= 100.00) yet the route
rejects it with INVALID_AMOUNT_PRECISION and appends nothing. -/
theorem C2_settle_success_counterexample :
    0 < (1/200 : ℚ) ∧ (1/200 : ℚ) ≤ availableOf sampleStore "ORD-1" ∧
      settle sampleStore "ORD-1" (JsNum.num (1/200))
        = (SettleResult.err SettleErr.INVALID_AMOUNT_PRECISION none, sampleStore) := by
  have hav : availableOf sampleStore "ORD-1" = 100 := by
    norm_num [availableOf, getAuthorizationByOrderId, latestBy, sampleStore,
      sumSettlementsForOrder, toMoney, jsRound, List.filter, List.foldl]
  refine ⟨by norm_num, by rw [hav]; norm_num, ?_⟩
  norm_num [settle, hasTwoDecimalsMax, jsRound]
  simp

/-- Witness for the amended C2 on the sample store: settling 40.00 of the
100.00 available leaves status AUTHORIZED with 60.00 available. -/
theorem C2_settle_success_witness :
    settle sampleStore "ORD-1" (JsNum.num 40)
      = (SettleResult.ok OrderStatus.AUTHORIZED 60,
         { orders := [⟨"ORD-1", OrderStatus.AUTHORIZED, "Ada L", "4242", 100, 0⟩],
           auths := [⟨"ORD-1", "STATIC_TOKEN_ORD-1", 100, AuthOutcome.SUCCESS, 1⟩],
           settlements := [⟨"ORD-1", 40, SettlementOutcome.SUCCESS, 2⟩],
           clock := 3 }) := by
  have hav : availableOf sampleStore "ORD-1" = 100 := by
    norm_num [availableOf, getAuthorizationByOrderId, latestBy, sampleStore,
      sumSettlementsForOrder, toMoney, jsRound, List.filter, List.foldl]
  have h := (C2_settle_success sampleStore "ORD-1"
      ⟨"ORD-1", OrderStatus.AUTHORIZED, "Ada L", "4242", 100, 0⟩
      ⟨"ORD-1", "STATIC_TOKEN_ORD-1", 100, AuthOutcome.SUCCESS, 1⟩ 40
      (by simp)
      (by simp [getOrder, sampleStore, List.find?])
      (by simp [getAuthorizationByOrderId, sampleStore, latestBy, List.filter])
      rfl
      (by norm_num [hasTwoDecimalsMax, jsRound])
      (by norm_num)
      (by rw [hav]; norm_num)).1
  rw [h, hav]
  norm_num [toMoney, jsRound, sampleStore]

/-! ### Preservation lemmas for C1 -/

theorem MoneyOK_updateOrderStatus {s : Store} (h : MoneyOK s)
    (oid : String) (st : OrderStatus) : MoneyOK (updateOrderStatus s oid st) := by
  obtain ⟨ho, ha, ht⟩ := h
  refine ⟨?_, ha, ht⟩
  intro o' ho'
  simp only [updateOrderStatus, List.mem_map] at ho'
  obtain ⟨o, hmem, rfl⟩ := ho'
  by_cases hid : o.order_id == oid
  · simpa [hid] using ho o hmem
  · simpa [hid] using ho o hmem

theorem ClockOK_updateOrderStatus {s : Store} (h : ClockOK s)
    (oid : String) (st : OrderStatus) : ClockOK (updateOrderStatus s oid st) := by
  obtain ⟨ho, ha, ht⟩ := h
  refine ⟨?_, ha, ht⟩
  intro o' ho'
  simp only [updateOrderStatus, List.mem_map] at ho'
  obtain ⟨o, hmem, rfl⟩ := ho'
  by_cases hid : o.order_id == oid
  · simpa [hid] using ho o hmem
  · simpa [hid] using ho o hmem

theorem MoneyOK_createSettlement {s : Store} (h : MoneyOK s)
    (oid : String) {amt : ℚ} (hamt : IsCents amt) (oc : SettlementOutcome) :
    MoneyOK (createSettlement s oid amt oc) := by
  obtain ⟨ho, ha, ht⟩ := h
  refine ⟨ho, ha, ?_⟩
  intro t' ht'
  simp only [createSettlement, List.mem_append, List.mem_singleton] at ht'
  rcases ht' with ht' | rfl
  · exact ht t' ht'
  · exact hamt

theorem ClockOK_createSettlement {s : Store} (h : ClockOK s)
    (oid : String) (amt : ℚ) (oc : SettlementOutcome) :
    ClockOK (createSettlement s oid amt oc) := by
  obtain ⟨ho, ha, ht⟩ := h
  refine ⟨fun o hmem => Nat.lt_succ_of_lt (ho o hmem),
    fun a hmem => Nat.lt_succ_of_lt (ha a hmem), ?_⟩
  intro t' ht'
  simp only [createSettlement, List.mem_append, List.mem_singleton] at ht'
  rcases ht' with ht' | rfl
  · exact Nat.lt_succ_of_lt (ht t' ht')
  · exact Nat.lt_succ_self _

theorem MoneyOK_createAuthorization {s : Store} (h : MoneyOK s)
    (oid token : String) {amt : ℚ} (hamt : IsCents amt) (oc : AuthOutcome) :
    MoneyOK (createAuthorization s oid token amt oc) := by
  obtain ⟨ho, ha, ht⟩ := h
  refine ⟨ho, ?_, ht⟩
  intro a' ha'
  simp only [createAuthorization, List.mem_append, List.mem_singleton] at ha'
  rcases ha' with ha' | rfl
  · exact ha a' ha'
  · exact hamt

theorem ClockOK_createAuthorization {s : Store} (h : ClockOK s)
    (oid token : String) (amt : ℚ) (oc : AuthOutcome) :
    ClockOK (createAuthorization s oid token amt oc) := by
  obtain ⟨ho, ha, ht⟩ := h
  refine ⟨fun o hmem => Nat.lt_succ_of_lt (ho o hmem), ?_,
    fun t hmem => Nat.lt_succ_of_lt (ht t hmem)⟩
  intro a' ha'
  simp only [createAuthorization, List.mem_append, List.mem_singleton] at ha'
  rcases ha' with ha' | rfl
  · exact Nat.lt_succ_of_lt (ha a' ha')
  · exact Nat.lt_succ_self _

theorem MoneyOK_createOrder {s : Store} (h : MoneyOK s)
    (oid : String) (st : OrderStatus) (name last4v : String) {amt : ℚ}
    (hamt : IsCents amt) : MoneyOK (createOrder s oid st name last4v amt) := by
  obtain ⟨ho, ha, ht⟩ := h
  refine ⟨?_, ha, ht⟩
  intro o' ho'
  simp only [createOrder, List.mem_append, List.mem_singleton] at ho'
  rcases ho' with ho' | rfl
  · exact ho o' ho'
  · exact hamt

theorem ClockOK_createOrder {s : Store} (h : ClockOK s)
    (oid : String) (st : OrderStatus) (name last4v : String) (amt : ℚ) :
    ClockOK (createOrder s oid st name last4v amt) := by
  obtain ⟨ho, ha, ht⟩ := h
  refine ⟨?_, fun a hmem => Nat.lt_succ_of_lt (ha a hmem),
    fun t hmem => Nat.lt_succ_of_lt (ht t hmem)⟩
  intro o' ho'
  simp only [createOrder, List.mem_append, List.mem_singleton] at ho'
  rcases ho' with ho' | rfl
  · exact Nat.lt_succ_of_lt (ho o' ho')
  · exact Nat.lt_succ_self _

/-- Either the settlement call leaves the store unchanged, or it took the
success path and the post-store is the recorded settlement plus status
update, with all path conditions in hand. -/
theorem settle_store_cases (s : Store) (oid : String) (amt : JsNum) :
    (settle s oid amt).2 = s ∨
    ∃ q a, amt = JsNum.num q ∧ hasTwoDecimalsMax q = true ∧ 0 < q ∧
      getAuthorizationByOrderId s oid = some a ∧
      a.outcome = AuthOutcome.SUCCESS ∧
      q ≤ toMoney (toMoney a.amount - sumSettlementsForOrder s oid) ∧
      (settle s oid amt).2
        = updateOrderStatus
            (createSettlement s oid (toMoney q) SettlementOutcome.SUCCESS) oid
            (if toMoney (toMoney (toMoney a.amount - sumSettlementsForOrder s oid) - q) = 0
             then OrderStatus.SETTLED else OrderStatus.AUTHORIZED) := by
  cases amt with
  | nonfinite => exact Or.inl rfl
  | num q =>
    by_cases h1 : oid = ""
    · exact Or.inl (by simp [settle, h1])
    · by_cases h2 : q ≤ 0
      · exact Or.inl (by simp [settle, h1, h2])
      · by_cases h3 : hasTwoDecimalsMax q
        · cases ho : getOrder s oid with
          | none => exact Or.inl (by simp [settle, h1, h2, h3, ho])
          | some o =>
            cases ha : getAuthorizationByOrderId s oid with
            | none => exact Or.inl (by simp [settle, h1, h2, h3, ho, ha])
            | some a =>
              by_cases h4 : a.outcome = AuthOutcome.SUCCESS
              · by_cases h5 :
                  toMoney (toMoney a.amount - sumSettlementsForOrder s oid) < q
                · exact Or.inl (by simp [settle, h1, h2, h3, ho, ha, h4, h5])
                · refine Or.inr ⟨q, a, rfl, h3, not_le.mp h2, rfl, h4, not_lt.mp h5, ?_⟩
                  simp [settle, h1, h2, h3, ho, ha, h4, h5]
              · exact Or.inl (by simp [settle, h1, h2, h3, ho, ha, h4])
        · exact Or.inl (by simp [settle, h1, h2, h3])

theorem settle_preserves_Consistent {s : Store} (h : Consistent s)
    (oid : String) (amt : JsNum) : Consistent (settle s oid amt).2 := by
  rcases settle_store_cases s oid amt with heq | ⟨q, a, _, _, _, _, _, _, heq⟩
  · rw [heq]; exact h
  · rw [heq]
    obtain ⟨hM, hK⟩ := h
    exact ⟨MoneyOK_updateOrderStatus
        (MoneyOK_createSettlement hM oid (isCents_toMoney q) _) oid _,
      ClockOK_updateOrderStatus (ClockOK_createSettlement hK oid _ _) oid _⟩

theorem settle_preserves_SettleInv {s : Store} (hM : MoneyOK s)
    (hI : SettleInv s) (oid : String) (amt : JsNum) :
    SettleInv (settle s oid amt).2 := by
  rcases settle_store_cases s oid amt with heq | ⟨q, a, _, hprec, _, hauth, hsucc, hle, heq⟩
  · rw [heq]; exact hI
  · rw [heq]
    intro oid' a' h'
    rw [latestSuccessAuth_updateOrderStatus, latestSuccessAuth_createSettlement] at h'
    rw [sumSettlements_updateOrderStatus, sumSettlements_createSettlement]
    by_cases hoid : oid = oid'
    · subst hoid
      rw [if_pos ⟨rfl, rfl⟩]
      have hlatest : latestSuccessAuth s oid = some a := by
        unfold latestSuccessAuth
        exact latestBy_filter_and hauth (by simp [hsucc])
      rw [h'] at hlatest
      have haa : a' = a := by simpa using hlatest
      subst haa
      have hamem : a' ∈ s.auths := by
        have := latestBy_mem hauth
        exact (List.mem_filter.mp this).1
      have hca : IsCents a'.amount := hM.2.1 a' hamem
      have hcs : IsCents (sumSettlementsForOrder s oid) :=
        isCents_sumSettlements s oid hM.2.2
      have hval : toMoney (toMoney a'.amount - sumSettlementsForOrder s oid)
          = a'.amount - sumSettlementsForOrder s oid := by
        rw [toMoney_of_isCents hca]
        exact toMoney_of_isCents (isCents_sub hca hcs)
      have hq : toMoney q = q :=
        toMoney_of_isCents (hasTwoDecimalsMax_iff.mp hprec)
      rw [hval] at hle
      rw [hq]
      have htol : (0 : ℚ) ≤ 1/1000000000 := by norm_num
      linarith
    · rw [if_neg (fun hh => hoid hh.1), add_zero]
      exact hI oid' a' h'

/-- The base store of an authorization call: the order is created in
PENDING state when absent. -/
def ensureOrder (s : Store) (oid : String) (cust : Customer) (card : Card)
    (q : ℚ) : Store :=
  match getOrder s oid with
  | some _ => s
  | none =>
    createOrder s oid OrderStatus.PENDING
      ((cust.firstName ++ " " ++ cust.lastName).trim)
      (last4 card.number) (toMoney q)

/-- Either the authorization call leaves the store unchanged (input
validation failed), or the post-store is: ensure the order, insert the
authorization row, update the status from the outcome. -/
theorem authorize_store_cases (s : Store) (oid : String) (cust : Customer)
    (card : Card) (ramt : Option JsNum) (prov : ProviderResp) :
    (authorize s oid cust card ramt prov).2 = s ∨
    ∃ q, ramt = some (JsNum.num q) ∧ 0 < q ∧ ¬ oid = "" ∧
      (authorize s oid cust card ramt prov).2
        = updateOrderStatus
            (createAuthorization (ensureOrder s oid cust card q)
              oid ("STATIC_TOKEN_" ++ oid) (toMoney q) (mapProviderOutcome prov))
            oid
            (if mapProviderOutcome prov = AuthOutcome.SUCCESS
             then OrderStatus.AUTHORIZED else OrderStatus.ERROR) := by
  by_cases h1 : oid = ""
  · exact Or.inl (by simp [authorize, h1])
  · cases ramt with
    | none => exact Or.inl (by simp [authorize, h1])
    | some jn =>
      cases jn with
      | nonfinite => exact Or.inl (by simp [authorize, h1])
      | num q =>
        by_cases h2 : q ≤ 0
        · exact Or.inl (by simp [authorize, h1, h2])
        · refine Or.inr ⟨q, rfl, not_le.mp h2, h1, ?_⟩
          simp only [authorize, if_neg h1, if_neg h2, ensureOrder]
          cases hmo : mapProviderOutcome prov <;> simp [hmo]

theorem Consistent_ensureOrder {s : Store} (h : Consistent s)
    (oid : String) (cust : Customer) (card : Card) (q : ℚ) :
    Consistent (ensureOrder s oid cust card q) := by
  unfold ensureOrder
  cases getOrder s oid with
  | some o => exact h
  | none =>
    exact ⟨MoneyOK_createOrder h.1 oid _ _ _ (isCents_toMoney q),
      ClockOK_createOrder h.2 oid _ _ _ _⟩

theorem sumSettlements_ensureOrder (s : Store) (oid : String) (cust : Customer)
    (card : Card) (q : ℚ) (oid' : String) :
    sumSettlementsForOrder (ensureOrder s oid cust card q) oid'
      = sumSettlementsForOrder s oid' := by
  unfold ensureOrder
  cases getOrder s oid <;> rfl

theorem latestSuccessAuth_ensureOrder (s : Store) (oid : String)
    (cust : Customer) (card : Card) (q : ℚ) (oid' : String) :
    latestSuccessAuth (ensureOrder s oid cust card q) oid'
      = latestSuccessAuth s oid' := by
  unfold ensureOrder
  cases getOrder s oid <;> rfl

theorem authorize_preserves_Consistent {s : Store} (h : Consistent s)
    (oid : String) (cust : Customer) (card : Card) (ramt : Option JsNum)
    (prov : ProviderResp) :
    Consistent (authorize s oid cust card ramt prov).2 := by
  rcases authorize_store_cases s oid cust card ramt prov with heq | ⟨q, _, _, _, heq⟩
  · rw [heq]; exact h
  · rw [heq]
    have hb := Consistent_ensureOrder h oid cust card q
    exact ⟨MoneyOK_updateOrderStatus
        (MoneyOK_createAuthorization hb.1 oid _ (isCents_toMoney q) _) oid _,
      ClockOK_updateOrderStatus (ClockOK_createAuthorization hb.2 oid _ _ _) oid _⟩

theorem authorize_preserves_SettleInv {s : Store} (hC : Consistent s)
    (hI : SettleInv s) (oid : String) (cust : Customer) (card : Card)
    (ramt : Option JsNum) (prov : ProviderResp)
    (hcond : ∀ q, ramt = some (JsNum.num q) →
      mapProviderOutcome prov ≠ AuthOutcome.SUCCESS ∨
        sumSettlementsForOrder s oid ≤ toMoney q + 1/1000000000) :
    SettleInv (authorize s oid cust card ramt prov).2 := by
  rcases authorize_store_cases s oid cust card ramt prov with heq | ⟨q, hq, _, _, heq⟩
  · rw [heq]; exact hI
  · rw [heq]
    intro oid' a' h'
    rw [latestSuccessAuth_updateOrderStatus] at h'
    rw [sumSettlements_updateOrderStatus, sumSettlements_createAuthorization,
      sumSettlements_ensureOrder]
    by_cases hout : mapProviderOutcome prov = AuthOutcome.SUCCESS
    · by_cases hoid : oid = oid'
      · subst hoid
        have hck : ∀ y ∈ (ensureOrder s oid cust card q).auths,
            y.created_at < (ensureOrder s oid cust card q).clock :=
          (Consistent_ensureOrder hC oid cust card q).2.2.1
        rw [hout] at h'
        rw [latestSuccessAuth_createAuthorization_success _ _ _ _ hck] at h'
        have ha' : a' = ⟨oid, "STATIC_TOKEN_" ++ oid, toMoney q,
            AuthOutcome.SUCCESS, (ensureOrder s oid cust card q).clock⟩ := by
          simpa using h'.symm
        rcases hcond q hq with hbad | hle
        · exact absurd hout hbad
        · rw [ha']
          exact hle
      · rw [latestSuccessAuth_createAuthorization_of_ne _ _ _ _ _ _
            (fun hh => hoid hh.1), latestSuccessAuth_ensureOrder] at h'
        exact hI oid' a' h'
    · rw [latestSuccessAuth_createAuthorization_of_ne _ _ _ _ _ _
          (fun hh => hout hh.2), latestSuccessAuth_ensureOrder] at h'
      exact hI oid' a' h'

/-! ### C1: the settlement invariant -/

/-- Claim C1 (amended: `settle` always preserves the invariant, and
`authorize` preserves it provided it is not a SUCCESS re-authorization
whose cent-rounded amount is below the order's SUCCESS-settlement
total): starting from a consistent store where every order's
SUCCESS-settlement total is within its latest SUCCESS authorization
(tolerance 1e-9), every settlement call and every such authorization
call yields a store that is again consistent and satisfies the
invariant. -/
theorem C1_invariant_preservation (s : Store) (hC : Consistent s)
    (hI : SettleInv s) :
    (∀ oid amt, Consistent (settle s oid amt).2 ∧ SettleInv (settle s oid amt).2) ∧
    (∀ oid cust card ramt prov,
       Consistent (authorize s oid cust card ramt prov).2 ∧
       ((∀ q, ramt = some (JsNum.num q) →
           mapProviderOutcome prov ≠ AuthOutcome.SUCCESS ∨
             sumSettlementsForOrder s oid ≤ toMoney q + 1/1000000000) →
         SettleInv (authorize s oid cust card ramt prov).2)) :=
  ⟨fun oid amt => ⟨settle_preserves_Consistent hC oid amt,
      settle_preserves_SettleInv hC.1 hI oid amt⟩,
   fun oid cust card ramt prov =>
     ⟨authorize_preserves_Consistent hC oid cust card ramt prov,
      fun hcond => authorize_preserves_SettleInv hC hI oid cust card ramt prov hcond⟩⟩

/-- Demo customer for the C1 counterexample. -/
def cxCust : Customer := ⟨"Ada", "L"⟩

/-- Demo card for the C1 counterexample. -/
def cxCard : Card := ⟨"4242424242424242", "08", "2030", "123"⟩

/-- A provider approval: HTTP 200 with `Success: true`. -/
def okResp : ProviderResp := ProviderResp.http 200 (some true) none

/-- Store after authorizing ORD-1 for 100.00 from the empty store. -/
def cxStore1 : Store :=
  (authorize emptyStore "ORD-1" cxCust cxCard (some (JsNum.num 100)) okResp).2

/-- Store after then settling 80.00 of ORD-1. -/
def cxStore2 : Store := (settle cxStore1 "ORD-1" (JsNum.num 80)).2

/-- Store after then re-authorizing ORD-1 for only 10.00. -/
def cxStore3 : Store :=
  (authorize cxStore2 "ORD-1" cxCust cxCard (some (JsNum.num 10)) okResp).2

theorem cxStore1_eq : cxStore1 =
    { orders := [⟨"ORD-1", OrderStatus.AUTHORIZED,
        ("Ada" ++ " " ++ "L").trim, last4 cxCard.number, 100, 0⟩],
      auths := [⟨"ORD-1", "STATIC_TOKEN_" ++ "ORD-1", 100,
        AuthOutcome.SUCCESS, 1⟩],
      settlements := [], clock := 2 } := by
  show (authorize emptyStore "ORD-1" cxCust cxCard (some (JsNum.num 100)) okResp).2 = _
  norm_num [authorize, mapProviderOutcome, okResp, getOrder, emptyStore,
    createOrder, createAuthorization, updateOrderStatus, toMoney, jsRound,
    cxCust, List.find?]
  simp

theorem cxStore2_eq : cxStore2 =
    { orders := [⟨"ORD-1", OrderStatus.AUTHORIZED,
        ("Ada" ++ " " ++ "L").trim, last4 cxCard.number, 100, 0⟩],
      auths := [⟨"ORD-1", "STATIC_TOKEN_" ++ "ORD-1", 100,
        AuthOutcome.SUCCESS, 1⟩],
      settlements := [⟨"ORD-1", 80, SettlementOutcome.SUCCESS, 2⟩],
      clock := 3 } := by
  show (settle cxStore1 "ORD-1" (JsNum.num 80)).2 = _
  rw [cxStore1_eq]
  norm_num [settle, getOrder, getAuthorizationByOrderId, latestBy,
    sumSettlementsForOrder, toMoney, jsRound, hasTwoDecimalsMax,
    createSettlement, updateOrderStatus, List.find?, List.filter, List.foldl]
  simp

theorem cxStore3_eq : cxStore3 =
    { orders := [⟨"ORD-1", OrderStatus.AUTHORIZED,
        ("Ada" ++ " " ++ "L").trim, last4 cxCard.number, 100, 0⟩],
      auths := [⟨"ORD-1", "STATIC_TOKEN_" ++ "ORD-1", 100,
        AuthOutcome.SUCCESS, 1⟩,
        ⟨"ORD-1", "STATIC_TOKEN_" ++ "ORD-1", 10, AuthOutcome.SUCCESS, 3⟩],
      settlements := [⟨"ORD-1", 80, SettlementOutcome.SUCCESS, 2⟩],
      clock := 4 } := by
  show (authorize cxStore2 "ORD-1" cxCust cxCard (some (JsNum.num 10)) okResp).2 = _
  rw [cxStore2_eq]
  norm_num [authorize, mapProviderOutcome, okResp, getOrder,
    createAuthorization, updateOrderStatus, toMoney, jsRound, cxCust,
    List.find?]
  simp

/-- Counterexample to C1 as literally stated: from the empty (consistent)
store the operation sequence authorize(ORD-1, 100.00) SUCCESS —
settle(ORD-1, 80.00) — authorize(ORD-1, 10.00) SUCCESS is accepted, and
in the resulting reachable store the SUCCESS-settlement total 80.00
exceeds the latest SUCCESS authorization amount 10.00 by far more than
1e-9: the second authorize call does not preserve the invariant. -/
theorem C1_invariant_preservation_counterexample :
    Consistent emptyStore ∧ SettleInv emptyStore ∧ ¬ SettleInv cxStore3 := by
  refine ⟨⟨⟨?_, ?_, ?_⟩, ?_⟩, ?_, ?_⟩
  · intro o ho
    simp [emptyStore] at ho
  · intro a ha
    simp [emptyStore] at ha
  · intro t ht
    simp [emptyStore] at ht
  · simp [ClockOK, emptyStore]
  · intro oid a h
    simp [latestSuccessAuth, emptyStore, List.filter, latestBy] at h
  · intro hInv
    have hsum : sumSettlementsForOrder cxStore3 "ORD-1" = 80 := by
      rw [cxStore3_eq]
      norm_num [sumSettlementsForOrder, List.filter, List.foldl]
    have hlsa : latestSuccessAuth cxStore3 "ORD-1"
        = some ⟨"ORD-1", "STATIC_TOKEN_" ++ "ORD-1", 10,
            AuthOutcome.SUCCESS, 3⟩ := by
      rw [cxStore3_eq]
      norm_num [latestSuccessAuth, List.filter, latestBy]
    have := hInv "ORD-1" _ hlsa
    rw [hsum] at this
    norm_num at this

/-- The sample store is consistent. -/
theorem Consistent_sampleStore : Consistent sampleStore := by
  refine ⟨⟨?_, ?_, ?_⟩, ?_⟩
  · intro o ho
    simp [sampleStore] at ho
    subst ho
    exact ⟨10000, by norm_num⟩
  · intro a ha
    simp [sampleStore] at ha
    subst ha
    exact ⟨10000, by norm_num⟩
  · intro t ht
    simp [sampleStore] at ht
  · simp [ClockOK, sampleStore]

/-- The sample store satisfies the settlement invariant. -/
theorem SettleInv_sampleStore : SettleInv sampleStore := by
  intro oid a h
  have hm := (List.mem_filter.mp (latestBy_mem h)).1
  simp [sampleStore] at hm
  subst hm
  have hz : sumSettlementsForOrder sampleStore oid = 0 := rfl
  rw [hz]
  norm_num

/-- Witness for the amended C1 at a concrete input: a 40.00 settlement of
the consistent sample store keeps it consistent and invariant-satisfying. -/
theorem C1_invariant_preservation_witness :
    Consistent (settle sampleStore "ORD-1" (JsNum.num 40)).2 ∧
      SettleInv (settle sampleStore "ORD-1" (JsNum.num 40)).2 :=
  (C1_invariant_preservation sampleStore Consistent_sampleStore
    SettleInv_sampleStore).1 "ORD-1" (JsNum.num 40)

/-! ### Further step lemmas for the authorization claims -/

theorem auths_ensureOrder (s : Store) (oid : String) (cust : Customer)
    (card : Card) (q : ℚ) : (ensureOrder s oid cust card q).auths = s.auths := by
  unfold ensureOrder
  cases getOrder s oid <;> rfl

theorem settlements_ensureOrder (s : Store) (oid : String) (cust : Customer)
    (card : Card) (q : ℚ) :
    (ensureOrder s oid cust card q).settlements = s.settlements := by
  unfold ensureOrder
  cases getOrder s oid <;> rfl

/-- The full shape of a valid authorization call: result and post-store. -/
theorem authorize_shape (s : Store) (oid : String) (cust : Customer)
    (card : Card) (q : ℚ) (prov : ProviderResp)
    (hne : ¬ oid = "") (hpos : ¬ q ≤ 0) :
    authorize s oid cust card (some (JsNum.num q)) prov
      = ((match mapProviderOutcome prov with
          | AuthOutcome.SUCCESS =>
            AuthorizeResult.authorized ("STATIC_TOKEN_" ++ oid)
              ("**** **** **** " ++ last4 card.number) (toMoney q)
          | AuthOutcome.INSUFFICIENT_FUNDS =>
            AuthorizeResult.declined AuthOutcome.INSUFFICIENT_FUNDS
          | AuthOutcome.INCORRECT_DETAILS =>
            AuthorizeResult.declined AuthOutcome.INCORRECT_DETAILS
          | AuthOutcome.SERVER_ERROR => AuthorizeResult.providerError),
         updateOrderStatus
           (createAuthorization (ensureOrder s oid cust card q) oid
             ("STATIC_TOKEN_" ++ oid) (toMoney q) (mapProviderOutcome prov))
           oid
           (if mapProviderOutcome prov = AuthOutcome.SUCCESS
            then OrderStatus.AUTHORIZED else OrderStatus.ERROR)) := by
  simp only [authorize, if_neg hne, if_neg hpos, ensureOrder]
  cases hmo : mapProviderOutcome prov <;> simp [hmo]

theorem getAuthorization_createAuthorization_self (s : Store)
    (oid token : String) (amt : ℚ) (oc : AuthOutcome)
    (hck : ∀ y ∈ s.auths, y.created_at < s.clock) :
    getAuthorizationByOrderId (createAuthorization s oid token amt oc) oid
      = some ⟨oid, token, amt, oc, s.clock⟩ := by
  unfold getAuthorizationByOrderId createAuthorization
  simp only [List.filter_append]
  rw [List.filter_cons_of_pos (by simp), List.filter_nil]
  exact latestBy_append_singleton (fun y hy =>
    le_of_lt (hck y (List.mem_filter.mp hy).1))

theorem getOrder_createOrder_self (s : Store) (oid : String) (st : OrderStatus)
    (name l4 : String) (amt : ℚ) (h : getOrder s oid = none) :
    getOrder (createOrder s oid st name l4 amt) oid
      = some ⟨oid, st, name, l4, amt, s.clock⟩ := by
  unfold getOrder createOrder at *
  rw [List.find?_append, h]
  simp

theorem find?_map_status (l : List Order) (oid : String) (st : OrderStatus)
    (o : Order) (h : l.find? (fun x => x.order_id == oid) = some o) :
    (l.map (fun x => if x.order_id == oid then { x with status := st } else x)).find?
        (fun x => x.order_id == oid) = some { o with status := st } := by
  induction l with
  | nil => simp at h
  | cons x t ih =>
    by_cases hp : x.order_id == oid
    · simp only [List.find?, hp] at h
      simp only [Option.some.injEq] at h
      subst h
      simp only [List.map_cons, if_pos hp]
      simp [List.find?, hp]
    · simp only [List.find?, hp] at h
      simp only [List.map_cons, if_neg hp]
      simp only [List.find?, hp]
      exact ih h

theorem getOrder_updateOrderStatus_self (s : Store) (oid : String)
    (st : OrderStatus) (o : Order) (h : getOrder s oid = some o) :
    getOrder (updateOrderStatus s oid st) oid = some { o with status := st } :=
  find?_map_status s.orders oid st o h

theorem getOrder_createAuthorization (s : Store) (oid token : String)
    (amt : ℚ) (oc : AuthOutcome) (oid' : String) :
    getOrder (createAuthorization s oid token amt oc) oid' = getOrder s oid' := rfl

theorem ClockOK_ensureOrder {s : Store} (h : ClockOK s) (oid : String)
    (cust : Customer) (card : Card) (q : ℚ) :
    ClockOK (ensureOrder s oid cust card q) := by
  unfold ensureOrder
  cases getOrder s oid with
  | some o => exact h
  | none => exact ClockOK_createOrder h oid _ _ _ _

/-! ### C5: authorization persistence -/

/-- Claim C5 (amended: the route appends a fresh Authorization row on
every call — rows accumulate rather than being replaced — and the newly
inserted row is what `getAuthorizationByOrderId` returns as the order's
current authorization): every valid authorize call appends exactly one
Authorization record carrying the deterministic token
`STATIC_TOKEN_<order_id>`, that record becomes the current one, and the
call's result and stored state are unchanged when the raw card number is
replaced by any card with the same last-4 digits and any CVV — the raw
PAN and CVV are never persisted. -/
theorem C5_authorization_record (s : Store) (oid : String) (cust : Customer)
    (card card' : Card) (q : ℚ) (prov : ProviderResp)
    (hne : ¬ oid = "") (hpos : ¬ q ≤ 0) (hck : ClockOK s)
    (hlast : last4 card.number = last4 card'.number) :
    ((authorize s oid cust card (some (JsNum.num q)) prov).2.auths
        = s.auths ++ [⟨oid, "STATIC_TOKEN_" ++ oid, toMoney q,
            mapProviderOutcome prov, (ensureOrder s oid cust card q).clock⟩])
      ∧ getAuthorizationByOrderId
          (authorize s oid cust card (some (JsNum.num q)) prov).2 oid
          = some ⟨oid, "STATIC_TOKEN_" ++ oid, toMoney q,
              mapProviderOutcome prov, (ensureOrder s oid cust card q).clock⟩
      ∧ authorize s oid cust card (some (JsNum.num q)) prov
          = authorize s oid cust card' (some (JsNum.num q)) prov := by
  refine ⟨?_, ?_, ?_⟩
  · rw [authorize_shape s oid cust card q prov hne hpos]
    show (ensureOrder s oid cust card q).auths ++ _ = _
    rw [auths_ensureOrder]
  · rw [authorize_shape s oid cust card q prov hne hpos]
    show getAuthorizationByOrderId
      (updateOrderStatus (createAuthorization _ _ _ _ _) _ _) _ = _
    rw [getAuthorization_updateOrderStatus]
    exact getAuthorization_createAuthorization_self _ oid _ (toMoney q) _
      ((ClockOK_ensureOrder hck oid cust card q).2.1)
  · rw [authorize_shape s oid cust card q prov hne hpos,
      authorize_shape s oid cust card' q prov hne hpos]
    have hE : ensureOrder s oid cust card q = ensureOrder s oid cust card' q := by
      unfold ensureOrder
      rw [hlast]
    rw [hE, hlast]

/-- Counterexample to C5 as literally stated: after a second authorize
call on ORD-1 the authorizations table holds two rows for that order —
the store does not keep at most one row per order_id. -/
theorem C5_authorization_record_counterexample :
    ¬ (((authorize cxStore1 "ORD-1" cxCust cxCard (some (JsNum.num 50))
          okResp).2.auths.filter (fun a => a.order_id == "ORD-1")).length ≤ 1) := by
  have h : (authorize cxStore1 "ORD-1" cxCust cxCard (some (JsNum.num 50))
        okResp).2.auths
      = [⟨"ORD-1", "STATIC_TOKEN_" ++ "ORD-1", 100, AuthOutcome.SUCCESS, 1⟩,
         ⟨"ORD-1", "STATIC_TOKEN_" ++ "ORD-1", 50, AuthOutcome.SUCCESS, 2⟩] := by
    rw [cxStore1_eq]
    norm_num [authorize, mapProviderOutcome, okResp, getOrder,
      createAuthorization, updateOrderStatus, toMoney, jsRound, cxCust,
      List.find?]
    simp
  rw [h]
  simp [List.filter]

/-- Witness for the amended C5: a fresh authorization of the sample store
appends the tokenized record and makes it the current authorization. -/
theorem C5_authorization_record_witness :
    ((authorize sampleStore "ORD-1" cxCust cxCard (some (JsNum.num 50))
        okResp).2.auths
      = sampleStore.auths ++ [⟨"ORD-1", "STATIC_TOKEN_" ++ "ORD-1", toMoney 50,
          mapProviderOutcome okResp,
          (ensureOrder sampleStore "ORD-1" cxCust cxCard 50).clock⟩])
    ∧ getAuthorizationByOrderId
        (authorize sampleStore "ORD-1" cxCust cxCard (some (JsNum.num 50))
          okResp).2 "ORD-1"
        = some ⟨"ORD-1", "STATIC_TOKEN_" ++ "ORD-1", toMoney 50,
            mapProviderOutcome okResp,
            (ensureOrder sampleStore "ORD-1" cxCust cxCard 50).clock⟩ := by
  have h := C5_authorization_record sampleStore "ORD-1" cxCust cxCard cxCard 50
    okResp (by simp) (by norm_num) Consistent_sampleStore.2 rfl
  exact ⟨h.1, h.2.1⟩

/-! ### C6: provider outcome mapping and failure recording -/

/-- Claim C6: the provider response maps to exactly one outcome following
the spec's table (`specOutcome`, read bullet by bullet), and every valid
authorize call — whatever the outcome, network failure included —
records an Authorization row carrying that outcome and sets the order
status to AUTHORIZED on SUCCESS and to ERROR on every failure outcome. -/
theorem C6_provider_outcome (s : Store) (oid : String) (cust : Customer)
    (card : Card) (q : ℚ) (prov : ProviderResp)
    (hne : ¬ oid = "") (hpos : ¬ q ≤ 0) :
    mapProviderOutcome prov = specOutcome prov
      ∧ (∃ c, (authorize s oid cust card (some (JsNum.num q)) prov).2.auths
          = s.auths ++ [⟨oid, "STATIC_TOKEN_" ++ oid, toMoney q,
              mapProviderOutcome prov, c⟩])
      ∧ (∃ o, getOrder (authorize s oid cust card (some (JsNum.num q)) prov).2 oid
            = some o ∧ o.status = (if mapProviderOutcome prov = AuthOutcome.SUCCESS
                then OrderStatus.AUTHORIZED else OrderStatus.ERROR)) := by
  refine ⟨by cases prov <;> rfl, ?_, ?_⟩
  · refine ⟨(ensureOrder s oid cust card q).clock, ?_⟩
    rw [authorize_shape s oid cust card q prov hne hpos]
    show (ensureOrder s oid cust card q).auths ++ _ = _
    rw [auths_ensureOrder]
  · rw [authorize_shape s oid cust card q prov hne hpos]
    cases hgo : getOrder s oid with
    | some o =>
      have hbase : ensureOrder s oid cust card q = s := by
        simp [ensureOrder, hgo]
      refine ⟨_, getOrder_updateOrderStatus_self _ oid _ o ?_, rfl⟩
      rw [getOrder_createAuthorization, hbase]
      exact hgo
    | none =>
      refine ⟨_, getOrder_updateOrderStatus_self _ oid _
        ⟨oid, OrderStatus.PENDING,
          (cust.firstName ++ " " ++ cust.lastName).trim,
          last4 card.number, toMoney q, s.clock⟩ ?_, rfl⟩
      rw [getOrder_createAuthorization]
      show getOrder (ensureOrder s oid cust card q) oid = _
      unfold ensureOrder
      rw [hgo]
      exact getOrder_createOrder_self s oid _ _ _ _ hgo

/-- Witness for C6: provider HTTP 402 maps to INSUFFICIENT_FUNDS and the
code's mapping agrees with the spec's table there. -/
theorem C6_provider_outcome_witness :
    mapProviderOutcome (ProviderResp.http 402 none none)
        = AuthOutcome.INSUFFICIENT_FUNDS
      ∧ mapProviderOutcome (ProviderResp.http 402 none none)
        = specOutcome (ProviderResp.http 402 none none) :=
  ⟨rfl, (C6_provider_outcome emptyStore "ORD-1" cxCust cxCard 50
      (ProviderResp.http 402 none none) (by simp) (by norm_num)).1⟩

/-! ### C10: authorize does not rewrite existing order rows -/

/-- The fields of an order row other than its status. -/
def orderSansStatus (o : Order) : String × String × String × ℚ × Nat :=
  (o.order_id, o.customer_name, o.card_last4, o.amount, o.created_at)

/-- Claim C10: an authorize call on an existing order never changes that
(or any) order row's customer_name, card_last4, amount or created_at —
only statuses and the authorizations table move; in particular the newly
requested amount is not written onto the order row, and the settlements
table is untouched. -/
theorem C10_authorize_existing_order_frame (s : Store) (oid : String)
    (cust : Customer) (card : Card) (ramt : Option JsNum)
    (prov : ProviderResp) (o : Order) (h : getOrder s oid = some o) :
    (authorize s oid cust card ramt prov).2.orders.map orderSansStatus
        = s.orders.map orderSansStatus
      ∧ (authorize s oid cust card ramt prov).2.settlements = s.settlements := by
  rcases authorize_store_cases s oid cust card ramt prov with
    heq | ⟨q, hq, hpos, hne, heq⟩
  · rw [heq]
    exact ⟨rfl, rfl⟩
  · rw [heq]
    have hbase : ensureOrder s oid cust card q = s := by
      simp [ensureOrder, h]
    rw [hbase]
    refine ⟨?_, rfl⟩
    have horders : ∀ (X : Store) (st : OrderStatus),
        (updateOrderStatus X oid st).orders
          = X.orders.map (fun x =>
              if x.order_id == oid then { x with status := st } else x) :=
      fun X st => rfl
    have hca : (createAuthorization s oid ("STATIC_TOKEN_" ++ oid) (toMoney q)
        (mapProviderOutcome prov)).orders = s.orders := rfl
    rw [horders, hca, List.map_map]
    refine List.map_congr_left ?_
    intro x _
    by_cases hx : x.order_id = oid <;> simp [orderSansStatus, hx]

/-- Witness for C10 on the sample store: a repeat authorization for 50.00
leaves the existing ORD-1 row's non-status fields and the settlements
table unchanged. -/
theorem C10_authorize_existing_order_frame_witness :
    (authorize sampleStore "ORD-1" cxCust cxCard (some (JsNum.num 50))
        okResp).2.orders.map orderSansStatus
      = sampleStore.orders.map orderSansStatus
    ∧ (authorize sampleStore "ORD-1" cxCust cxCard (some (JsNum.num 50))
        okResp).2.settlements = sampleStore.settlements :=
  C10_authorize_existing_order_frame sampleStore "ORD-1" cxCust cxCard
    (some (JsNum.num 50)) okResp
    ⟨"ORD-1", OrderStatus.AUTHORIZED, "Ada L", "4242", 100, 0⟩
    (by simp [getOrder, sampleStore, List.find?])

/-! ### C8: the consistency audit -/

/-- Claim C8: the audit is side-effect-free (the store after the run is
the store before it), and every SETTLED order whose SUCCESS-settlement
total differs from its latest SUCCESS authorization amount by more than
1e-9 gets a settlement-mismatch defect reported for that order. -/
theorem C8_audit_mismatch (s : Store) (o : Order) (a : Auth)
    (hmem : o ∈ s.orders) (hst : o.status = OrderStatus.SETTLED)
    (hlsa : latestSuccessAuth s o.order_id = some a)
    (hgap : 1/1000000000 < |sumSettlementsForOrder s o.order_id - a.amount|) :
    (runConsistencyAudit s).2 = s
      ∧ Defect.settlementMismatch o.order_id ∈ (runConsistencyAudit s).1 := by
  refine ⟨rfl, ?_⟩
  have hdef : Defect.settlementMismatch o.order_id ∈ orderDefects s o := by
    unfold orderDefects
    rw [hlsa]
    simp only [List.mem_append]
    right
    rw [if_pos ⟨hst, hgap⟩]
    simp
  have hflat : Defect.settlementMismatch o.order_id
      ∈ (s.orders.map (orderDefects s)).flatten := by
    rw [List.mem_flatten]
    exact ⟨orderDefects s o, List.mem_map_of_mem _ hmem, hdef⟩
  unfold runConsistencyAudit
  simp only [List.mem_append]
  tauto

/-- A store whose SETTLED order ORD-2 has settlement total 99.99 against
an authorized amount of 100.00. -/
def mismatchStore : Store :=
  ⟨[⟨"ORD-2", OrderStatus.SETTLED, "Bob", "1111", 100, 0⟩],
   [⟨"ORD-2", "STATIC_TOKEN_ORD-2", 100, AuthOutcome.SUCCESS, 1⟩],
   [⟨"ORD-2", 9999/100, SettlementOutcome.SUCCESS, 2⟩], 3⟩

/-- Witness for C8: the 99.99-vs-100.00 store gets a SETTLEMENT_MISMATCH
defect for ORD-2 and the audit leaves the store unchanged. -/
theorem C8_audit_mismatch_witness :
    (runConsistencyAudit mismatchStore).2 = mismatchStore
      ∧ Defect.settlementMismatch "ORD-2" ∈ (runConsistencyAudit mismatchStore).1 :=
  C8_audit_mismatch mismatchStore
    ⟨"ORD-2", OrderStatus.SETTLED, "Bob", "1111", 100, 0⟩
    ⟨"ORD-2", "STATIC_TOKEN_ORD-2", 100, AuthOutcome.SUCCESS, 1⟩
    (by simp [mismatchStore]) rfl
    (by simp [latestSuccessAuth, mismatchStore, List.filter, latestBy])
    (by
      norm_num [sumSettlementsForOrder, mismatchStore, List.filter, List.foldl]
      rw [abs_of_pos (by norm_num : (0:ℚ) < 1/100)]
      norm_num)

/-! ### C9: order details versus settlement on a declined authorization -/

/-- A store whose order ORD-3 has a latest authorization with a
non-SUCCESS outcome (INCORRECT_DETAILS) over 50.00 and no settlements. -/
def declinedStore : Store :=
  ⟨[⟨"ORD-3", OrderStatus.ERROR, "Eve", "9999", 50, 0⟩],
   [⟨"ORD-3", "STATIC_TOKEN_ORD-3", 50, AuthOutcome.INCORRECT_DETAILS, 1⟩], [], 2⟩

/-- Claim C9 (amended: availableToSettle is max(0, round2(A)) — equal to
max(0, A) when A carries at most 2 decimals — and the NO_APPROVED_AUTH
rejection holds for every structurally valid amount, i.e. positive,
finite, at most 2 decimals; a non-positive amount is rejected earlier
with INVALID_AMOUNT): getOrderDetails computes availableToSettle from
the latest authorization regardless of its outcome, clamped below at 0,
even though every structurally valid settlement on the same order is
rejected with NO_APPROVED_AUTH. -/
theorem C9_details_vs_settle (s : Store) (oid : String) (o : Order) (a : Auth)
    (hne : ¬ oid = "")
    (hord : getOrder s oid = some o)
    (hauth : getAuthorizationByOrderId s oid = some a)
    (hfail : a.outcome ≠ AuthOutcome.SUCCESS)
    (hnosett : sumSettlementsForOrder s oid = 0) :
    ((getOrderDetails s oid).map OrderDetails.availableToSettle
        = some (max 0 (toMoney a.amount)))
      ∧ (IsCents a.amount → max 0 (toMoney a.amount) = max 0 a.amount)
      ∧ (∀ q : ℚ, 0 < q → hasTwoDecimalsMax q = true →
          (settle s oid (JsNum.num q)).1
            = SettleResult.err SettleErr.NO_APPROVED_AUTH none) := by
  refine ⟨?_, ?_, ?_⟩
  · simp [getOrderDetails, hord, hauth, hnosett]
  · intro hc
    rw [toMoney_of_isCents hc]
  · intro q hq hprec
    simp [settle, hne, not_le.mpr hq, hprec, hord, hauth, hfail]

/-- Counterexample to C9 as literally stated ("settle rejects every
amount with NO_APPROVED_AUTH"): on the declined store the details
endpoint reports 50.00 available, yet settle with amount 0 answers
INVALID_AMOUNT, not NO_APPROVED_AUTH. -/
theorem C9_details_vs_settle_counterexample :
    ((getOrderDetails declinedStore "ORD-3").map OrderDetails.availableToSettle
        = some 50)
      ∧ (settle declinedStore "ORD-3" (JsNum.num 0)).1
          = SettleResult.err SettleErr.INVALID_AMOUNT none
      ∧ SettleResult.err SettleErr.INVALID_AMOUNT none
          ≠ SettleResult.err SettleErr.NO_APPROVED_AUTH none := by
  refine ⟨?_, ?_, by simp⟩
  · norm_num [getOrderDetails, getOrder, declinedStore, getAuthorizationByOrderId,
      latestBy, sumSettlementsForOrder, toMoney, jsRound, List.find?,
      List.filter, List.foldl, listSettlementsByOrderId]
  · norm_num [settle]
    simp

/-- Witness for C9: on the declined store the details endpoint reports
max(0, round2(50)) available while settling 10.00 is rejected with
NO_APPROVED_AUTH. -/
theorem C9_details_vs_settle_witness :
    ((getOrderDetails declinedStore "ORD-3").map OrderDetails.availableToSettle
        = some (max 0 (toMoney (50:ℚ))))
      ∧ (settle declinedStore "ORD-3" (JsNum.num 10)).1
          = SettleResult.err SettleErr.NO_APPROVED_AUTH none := by
  have h := C9_details_vs_settle declinedStore "ORD-3"
    ⟨"ORD-3", OrderStatus.ERROR, "Eve", "9999", 50, 0⟩
    ⟨"ORD-3", "STATIC_TOKEN_ORD-3", 50, AuthOutcome.INCORRECT_DETAILS, 1⟩
    (by simp) (by simp [getOrder, declinedStore, List.find?])
    (by simp [getAuthorizationByOrderId, declinedStore, latestBy, List.filter])
    (by simp) rfl
  exact ⟨h.1, h.2.2 10 (by norm_num) (by norm_num [hasTwoDecimalsMax, jsRound])⟩

end Capstone
